import Mathlib

/-!
Verification of the wine-bot conversational recommendation system.

The repository splits into a React/TypeScript front end (under
`wine-app/web` and `wine-recommender/static`) and a conversational
orchestration / retrieval core described by the design document.  The
front-end data handling (rolling chat history, API token refresh,
cellar quantity controls, no-match messaging) is embedded here directly
from the TypeScript/JavaScript sources.  The core pipeline (intent
classifier, Preference Interpreter, Wine Searcher, orchestrator
confirmation protocol) is present in the repository only through its
design document and callers; those parts are modelled from the spec,
as indicated in the doc comment of each such definition.

Numeric conventions: prices are integer dollars, similarity scores and
ratings are integer-scaled (the original code's floating point values
scaled to integers); this does not affect any ordering or filtering
property proved below.
-/

namespace WineBot

/-! ## Basic character-level string helpers (used by the modelled core) -/

/-- Lowercase a list of characters. -/
def lowerChars (l : List Char) : List Char := l.map Char.toLower

/-- True when `pat` (already lowercase) occurs as a contiguous substring of
the lowercased `s`. -/
def substrB (pat s : String) : Bool :=
  (lowerChars s.toList).tails.any (fun t => pat.toList.isPrefixOf t)

/-- Split a character list on a separator character. -/
def splitChars (sep : Char) : List Char → List (List Char)
  | [] => [[]]
  | c :: cs =>
    let r := splitChars sep cs
    if c = sep then [] :: r
    else
      match r with
      | [] => [[c]]
      | w :: ws => (c :: w) :: ws

/-! ## Data model (spec section 3) -/

/-- A chat history entry, as kept by the front-end `useChat` hook
(`role` and `content` fields). -/
structure ChatMessage where
  role : String
  content : String
deriving DecidableEq

/-- The fixed intent taxonomy of the classifier (spec section 4.1). -/
inductive IntentType
  | recommend
  | educate_general
  | educate_specific
  | cellar_add
  | cellar_query
  | cellar_remove
  | rate
  | profile_query
  | decide
  | analyze_photo
  | correction
  | off_topic
  | unclear
deriving DecidableEq

/-- Typed intent produced by the classifier (spec section 3). -/
structure Intent where
  type : IntentType
  confidence : Int
  is_ambiguous : Bool
  ambiguity_reason : Option String
  clarifying_question : Option String
  extracted_entities : List String
  resolved_references : List String
deriving DecidableEq

/-- Catalog wine entity (spec section 3); `rating` is carried by catalog
entries because the ranking tie-break of section 4.3 consults it. -/
structure Wine where
  id : Nat
  name : String
  producer : String
  vintage : Nat
  wine_type : String
  varietal : String
  country : String
  region : String
  price : Int
  rating : Int
  characteristics : List String
  flavor_notes : List String
deriving DecidableEq

/-- Provenance marker of an explanation claim (spec section 3). -/
inductive Provenance
  | user_request
  | category_knowledge
deriving DecidableEq

/-- Structured search query built by the Preference Interpreter
(spec section 3): the fused `query_text` used only for embedding search,
the verbatim `user_request`, the system-derived `category_knowledge`,
and the hard filters. -/
structure SearchQuery where
  query_text : String
  category_knowledge : String
  user_request : String
  price_min : Option Int
  price_max : Option Int
  wine_type_filter : Option String
  region_filter : Option String
  country_filter : Option String
  varietal_filter : Option String
  occasion : Option String
  food_pairing : Option String
deriving DecidableEq

/-- Per-request recommendation record (spec section 3). -/
structure WineRecommendation where
  wine : Wine
  explanation : String
  relevance_score : Int
  provenance : Provenance
deriving DecidableEq

/-! ## Rolling chat history (useChat hook, wine-app front end)

Embedded from the `useChat` hook: `addMessage` pushes the entry onto
`historyRef.current` and, when the length exceeds 20, keeps only the
last 20 via `slice(-20)`; `sendMessage` passes `slice(-10)` of the
history to the chat API. -/

/-- The last `n` elements of a list (JavaScript `slice(-n)` for `n > 0`). -/
def takeLast (n : Nat) (l : List α) : List α := l.drop (l.length - n)

/-- One `addMessage` step on the rolling history: append, then trim to the
last 20 entries when the length exceeds 20. -/
def addMessage (h : List ChatMessage) (m : ChatMessage) : List ChatMessage :=
  let h2 := h ++ [m]
  if h2.length > 20 then takeLast 20 h2 else h2

/-- The rolling history after a sequence of `addMessage` calls. -/
def rollHistory (h : List ChatMessage) (ms : List ChatMessage) : List ChatMessage :=
  ms.foldl addMessage h

/-- The context slice sent with each chat request: `slice(-10)` of the
rolling history. -/
def sendHistory (h : List ChatMessage) : List ChatMessage := takeLast 10 h

/-! ## Cellar quantity edit controls

Embedded from the edit forms: `WineDetailPage` uses
`Math.max(1, editData.quantity - 1)` for the minus button and
`editData.quantity + 1` for the plus button; `CellarBottleCard` is the
same except that it first coalesces a missing or zero quantity to 1
(JavaScript `editData.quantity || 1`). -/

/-- A click on one of the two quantity buttons. -/
inductive QtyClick
  | inc
  | dec
deriving DecidableEq

/-- Minus button of `WineDetailPage`: `Math.max(1, quantity - 1)`. -/
def decQuantity (q : Int) : Int := max 1 (q - 1)

/-- Plus button of `WineDetailPage`: `quantity + 1`. -/
def incQuantity (q : Int) : Int := q + 1

/-- JavaScript `quantity || 1`: a missing or zero quantity reads as 1. -/
def coalesceQty : Option Int → Int
  | none => 1
  | some v => if v = 0 then 1 else v

/-- Minus button of `CellarBottleCard`: `Math.max(1, (quantity || 1) - 1)`. -/
def decQuantityOpt (q : Option Int) : Int := decQuantity (coalesceQty q)

/-- Plus button of `CellarBottleCard`: `(quantity || 1) + 1`. -/
def incQuantityOpt (q : Option Int) : Int := incQuantity (coalesceQty q)

/-- Effect of one button click on the edited quantity. -/
def applyClick (q : Int) : QtyClick → Int
  | .inc => incQuantity q
  | .dec => decQuantity q

/-- Edited quantity after a sequence of button clicks. -/
def applyClicks (q : Int) (cs : List QtyClick) : Int := cs.foldl applyClick q

/-! ## ApiClient token refresh (wine-app/web/src/services/api.ts)

Embedded from `ApiClient.request` and `ApiClient.refreshAccessToken`.
The network is modelled as a script giving the response to the first
fetch, the outcome of the refresh endpoint (the new token pair when it
succeeds), and the response to the retried fetch; stats count how many
main-endpoint fetches and refresh-endpoint fetches a call performs. -/

/-- The two tokens held in localStorage. -/
structure Tokens where
  access : Option String
  refresh : Option String
deriving DecidableEq

/-- An HTTP response: `response.ok` with a JSON body, or a failure status
with the optional `error` field of the parsed body. -/
inductive HttpResp
  | success (body : String)
  | failure (code : Nat) (errField : Option String)
deriving DecidableEq

/-- Scripted network behaviour for one `request` call. -/
structure NetScript where
  first : HttpResp
  refreshOk : Option (String × String)
  retry : HttpResp
deriving DecidableEq

/-- How many fetches a `request` call issued. -/
structure FetchStats where
  mainCalls : Nat
  refreshCalls : Nat
deriving DecidableEq

/-- The `isRefreshing` / `refreshPromise` pair guarding concurrent
refreshes in `ApiClient`. -/
structure RefreshState where
  isRefreshing : Bool
  refreshPromise : Option Bool
deriving DecidableEq

/-- `clearTokens()`: removes both tokens from localStorage. -/
def clearTokens : Tokens := ⟨none, none⟩

/-- `setTokens(access, refresh)`. -/
def setTokens (a r : String) : Tokens := ⟨some a, some r⟩

/-- `response.ok`. -/
def respOk : HttpResp → Bool
  | .success _ => true
  | .failure _ _ => false

/-- The body returned by `response.json()` on success. -/
def bodyOf : HttpResp → String
  | .success b => b
  | .failure _ _ => ""

/-- The thrown message for a non-ok response:
`error.error || HTTP status`. -/
def respErrMsg : HttpResp → String
  | .success _ => ""
  | .failure code e => e.getD ("HTTP " ++ toString code)

/-- `response.status === 401`. -/
def is401 : HttpResp → Bool
  | .failure 401 _ => true
  | _ => false

/-- `ApiClient.refreshAccessToken`: when a refresh is already in flight
it returns the shared promise without touching the network; otherwise,
with no stored refresh token it returns false without a network call;
otherwise it calls the refresh endpoint once, storing the new token pair
on success.  Result: (refreshed?, tokens after, refresh fetches issued). -/
def refreshAccessToken (rs : RefreshState) (tok : Tokens) (net : NetScript) :
    Bool × Tokens × Nat :=
  if rs.isRefreshing then (rs.refreshPromise.getD false, tok, 0)
  else
    match tok.refresh with
    | none => (false, tok, 0)
    | some _ =>
      match net.refreshOk with
      | some (a, r) => (true, setTokens a r, 1)
      | none => (false, tok, 1)

/-- `ApiClient.request`: fetch once; on a 401 of an authenticated request,
refresh the access token and retry exactly once, or clear both tokens and
throw "Session expired. Please log in again." when the refresh fails.
Result: (outcome, tokens after, fetch stats). -/
def request (requiresAuth : Bool) (tok : Tokens) (net : NetScript) :
    Except String String × Tokens × FetchStats :=
  let r1 := net.first
  if is401 r1 && requiresAuth then
    let rr := refreshAccessToken ⟨false, none⟩ tok net
    if rr.1 then
      let r2 := net.retry
      if respOk r2 then (.ok (bodyOf r2), rr.2.1, ⟨2, rr.2.2⟩)
      else (.error (respErrMsg r2), rr.2.1, ⟨2, rr.2.2⟩)
    else (.error "Session expired. Please log in again.", clearTokens, ⟨1, rr.2.2⟩)
  else if respOk r1 then (.ok (bodyOf r1), tok, ⟨1, 0⟩)
  else (.error (respErrMsg r1), tok, ⟨1, 0⟩)

/-! ## Intent Classifier (spec section 4.1) -/

/-- Modelled from the spec: the intent classifier itself
(`classify(message, attachments, history) -> Intent`) is not present in
the repository sources, only its design contract.  Correction detection
runs first over a fixed set of lexical patterns. -/
def correctionPatterns : List String :=
  ["actually", "no i meant", "nevermind", "undo"]

/-- Modelled from the spec: lexical correction short-circuit of the
classifier. -/
def isCorrectionMsg (msg : String) : Bool :=
  correctionPatterns.any (fun p => substrB p msg)

/-- Modelled from the spec: keyword recognizers for the fixed intent
taxonomy, tried in order; a message matching none of them is
unrecognized. -/
def recognizers : List (String × IntentType) :=
  [ ("remove", .cellar_remove)
  , ("recommend", .recommend)
  , ("suggest", .recommend)
  , ("looking for", .recommend)
  , ("add", .cellar_add)
  , ("save", .cellar_add)
  , ("my cellar", .cellar_query)
  , ("what do i have", .cellar_query)
  , ("what do i like", .profile_query)
  , ("stars", .rate)
  , ("rate", .rate)
  , ("tell me about", .educate_specific)
  , ("what is", .educate_general)
  , ("learn", .educate_general)
  , ("tonight", .decide)
  , ("pick", .decide)
  ]

/-- Modelled from the spec: whether any recognition path of the
classifier fires for the given message and attachment. -/
def recognizedB (msg : String) (att : Option String) : Bool :=
  isCorrectionMsg msg || att.isSome ||
    (recognizers.any (fun p => substrB p.1 msg))

/-- Modelled from the spec: the intent type assigned to a message —
correction patterns first, then the photo attachment, then the keyword
taxonomy, with `unclear` as the total fallback for anything
unrecognized (never an error). -/
def intentTypeOf (msg : String) (att : Option String) : IntentType :=
  if isCorrectionMsg msg then .correction
  else if att.isSome then .analyze_photo
  else
    match recognizers.find? (fun p => substrB p.1 msg) with
    | some p => p.2
    | none => .unclear

/-- Modelled from the spec: `classify`.  The language model behind the
classifier is a non-deterministic collaborator; it is abstracted as an
`oracle` supplying free text, which the classifier consumes only for
the generated clarifying question — the assigned intent type is a pure
function of message, attachment and history. -/
def classify (oracle : Nat → String) (msg : String) (att : Option String)
    (_hist : List ChatMessage) : Intent :=
  let t := intentTypeOf msg att
  { type := t
  , confidence := if t = .unclear then 30 else 85
  , is_ambiguous := false
  , ambiguity_reason := none
  , clarifying_question := if t = .unclear then some (oracle 0) else none
  , extracted_entities := []
  , resolved_references := [] }

/-! ## Preference Interpreter, Agent 1 (spec section 4.2) -/

/-- Stored user preference signals consulted by Agent 1 as fallbacks. -/
structure UserPreferences where
  budget_min : Option Int
  budget_max : Option Int
  wine_type_pref : Option String
  food_pairing_pref : Option String
deriving DecidableEq

/-- The structured filters produced by the NL-to-JSON extraction step
(an external language-model collaborator, supplied as data). -/
structure Extracted where
  price_min : Option Int
  price_max : Option Int
  wine_type : Option String
  region : Option String
  country : Option String
  varietal : Option String
  occasion : Option String
  food_pairing : Option String
deriving DecidableEq

/-- Modelled from the spec: the joined text of the knowledge chunks
retrieved from the knowledge store (empty when the lookup fails or
returns no chunks). -/
def joinChunks (ks : List String) : String :=
  String.intercalate " " ks

/-- Modelled from the spec: the fused string built for the embedding
search only — the one place the literal ask and the category knowledge
are combined. -/
def fuseQuery (userDescription : String) (ks : List String) : String :=
  userDescription ++ " " ++ joinChunks ks

/-- Modelled from the spec: Agent 1 (`interpret`); the Preference
Interpreter source is not in the repository, only its design contract.
The verbatim ask goes to `user_request`, the joined retrieved chunks to
`category_knowledge`, the fused string to `query_text`; extracted
filter values take precedence over stored preferences. -/
def interpret (userDescription : String) (ks : List String)
    (prefs : UserPreferences) (ex : Extracted) : SearchQuery :=
  { query_text := fuseQuery userDescription ks
  , category_knowledge := joinChunks ks
  , user_request := userDescription
  , price_min := ex.price_min.orElse (fun _ => prefs.budget_min)
  , price_max := ex.price_max.orElse (fun _ => prefs.budget_max)
  , wine_type_filter := ex.wine_type.orElse (fun _ => prefs.wine_type_pref)
  , region_filter := ex.region
  , country_filter := ex.country
  , varietal_filter := ex.varietal
  , occasion := ex.occasion
  , food_pairing := ex.food_pairing.orElse (fun _ => prefs.food_pairing_pref) }

/-! ## Wine Searcher, Agent 2 (spec section 4.3) -/

/-- Modelled from the spec: the hard metadata filter — price range,
wine type, region, country and varietal when present; a candidate
failing any present filter is excluded regardless of similarity. -/
def passesFilters (q : SearchQuery) (w : Wine) : Bool :=
  (match q.price_min with | some m => decide (m ≤ w.price) | none => true) &&
  (match q.price_max with | some m => decide (w.price ≤ m) | none => true) &&
  (match q.wine_type_filter with | some t => w.wine_type = t | none => true) &&
  (match q.region_filter with | some r => w.region = r | none => true) &&
  (match q.country_filter with | some c => w.country = c | none => true) &&
  (match q.varietal_filter with | some v => w.varietal = v | none => true)

/-- Twice the midpoint of the requested price range (absent bounds read
as 0, matching a degenerate range). -/
def midpointTwice (q : SearchQuery) : Int :=
  q.price_min.getD 0 + q.price_max.getD 0

/-- Price proximity of a wine to the midpoint of the requested range
(smaller is closer); measured on doubled values to stay integral. -/
def priceProx (q : SearchQuery) (w : Wine) : Nat :=
  (2 * w.price - midpointTwice q).natAbs

/-- Modelled from the spec: the ranking preorder of Agent 2 — the
first candidate ranks at least as high as the second when its
similarity is higher, or similarities tie and its rating is higher, or
both tie and its price is at least as close to the requested midpoint.
Candidates are wines paired with their similarity score from the
vector index. -/
def rankLE (q : SearchQuery) (a b : Wine × Int) : Prop :=
  b.2 < a.2 ∨ (a.2 = b.2 ∧
    (b.1.rating < a.1.rating ∨ (a.1.rating = b.1.rating ∧
      priceProx q a.1 ≤ priceProx q b.1)))

instance rankLE_decidable (q : SearchQuery) : DecidableRel (rankLE q) := by
  unfold rankLE
  infer_instance

instance rankLE_total (q : SearchQuery) : IsTotal (Wine × Int) (rankLE q) where
  total a b := by
    unfold rankLE
    rcases lt_trichotomy a.2 b.2 with h | h | h
    · exact Or.inr (Or.inl h)
    · rcases lt_trichotomy a.1.rating b.1.rating with hr | hr | hr
      · exact Or.inr (Or.inr ⟨h.symm, Or.inl hr⟩)
      · rcases Nat.le_total (priceProx q a.1) (priceProx q b.1) with hp | hp
        · exact Or.inl (Or.inr ⟨h, Or.inr ⟨hr, hp⟩⟩)
        · exact Or.inr (Or.inr ⟨h.symm, Or.inr ⟨hr.symm, hp⟩⟩)
      · exact Or.inl (Or.inr ⟨h, Or.inl hr⟩)
    · exact Or.inl (Or.inl h)

instance rankLE_trans (q : SearchQuery) : IsTrans (Wine × Int) (rankLE q) where
  trans a b c hab hbc := by
    unfold rankLE at *
    rcases hab with h1 | ⟨e1, h1⟩
    · rcases hbc with h2 | ⟨e2, h2⟩
      · exact Or.inl (h2.trans h1)
      · exact Or.inl (e2 ▸ h1)
    · rcases hbc with h2 | ⟨e2, h2⟩
      · exact Or.inl (e1 ▸ h2)
      · refine Or.inr ⟨e1.trans e2, ?_⟩
        rcases h1 with hr1 | ⟨er1, hp1⟩
        · rcases h2 with hr2 | ⟨er2, hp2⟩
          · exact Or.inl (hr2.trans hr1)
          · exact Or.inl (er2 ▸ hr1)
        · rcases h2 with hr2 | ⟨er2, hp2⟩
          · exact Or.inl (er1 ▸ hr2)
          · exact Or.inr ⟨er1.trans er2, hp1.trans hp2⟩

/-- Modelled from the spec: per-wine explanation text — references the
verbatim user request, connects to the wine's own listed attributes,
and adds category knowledge only framed explicitly as general
education, degrading to attribute-only framing when the knowledge is
empty.  It consumes `user_request` and `category_knowledge` separately
and never reads the fused `query_text`. -/
def explanationFor (q : SearchQuery) (w : Wine) : String :=
  "You asked for: " ++ q.user_request ++ ". " ++ w.name ++ " offers " ++
    String.intercalate ", " w.flavor_notes ++ "." ++
    (if q.category_knowledge = "" then ""
     else " As general background about this category: " ++
       q.category_knowledge)

/-- Modelled from the spec: Agent 2 (`search`); the Wine Searcher
source is not in the repository, only its design contract.  The vector
catalog index is an external collaborator mapping the embedded
`query_text` to similarity-scored candidates; `search` hard-filters
them, ranks survivors by the spec ordering and returns at most `top_n`
recommendations (default 3), an empty list when nothing survives. -/
def search (index : String → List (Wine × Int)) (q : SearchQuery)
    (top_n : Nat := 3) : List WineRecommendation :=
  let candidates := index q.query_text
  let survivors := candidates.filter (fun c => passesFilters q c.1)
  let ranked := survivors.insertionSort (rankLE q)
  (ranked.take top_n).map (fun c =>
    { wine := c.1
    , explanation := explanationFor q c.1
    , relevance_score := c.2
    , provenance := Provenance.user_request })

/-- The ranking preorder read off a pair of returned recommendations. -/
def recRankLE (q : SearchQuery) (a b : WineRecommendation) : Prop :=
  rankLE q (a.wine, a.relevance_score) (b.wine, b.relevance_score)

/-! ## Recommendation form caller (wine-recommender/static/js/main.js) -/

/-- Outcome of the recommendation form submission handler. -/
inductive FormOutcome
  | showError (msgText : String)
  | navigate (url : String)
deriving DecidableEq

/-- Embedded from `handleFormSubmit`: after the `/api/recommendations`
fetch resolves, a non-ok response throws `data.error` (or a fallback),
caught and shown as an error; an ok response with an empty
recommendation list shows `data.message` or the honest default no-match
text; otherwise the page navigates to the results view. -/
def handleRecommendationResponse (ok : Bool) (recs : List WineRecommendation)
    (message : Option String) (err : Option String) : FormOutcome :=
  if !ok then .showError (err.getD "Failed to get recommendations")
  else if recs.isEmpty then
    .showError (message.getD
      "No wines found matching your criteria. Try adjusting your budget or preferences.")
  else .navigate "/results.html"

/-! ## Chat Orchestrator confirmation protocol (spec section 4.4) -/

/-- Confirmation ticket for a destructive action (spec section 3). -/
structure ConfirmationRequest where
  action : String
  target_id : String
  destructive : Bool
deriving DecidableEq

/-- Orchestrator cross-message state: the pending confirmation plus the
user-owned data the Cellar and Profile handlers mutate. -/
structure OrchState where
  pending : Option ConfirmationRequest
  cellar : List String
  profileSignals : List String
deriving DecidableEq

/-- What the orchestrator emits back for one message. -/
inductive OrchOutput
  | confirmation (c : ConfirmationRequest)
  | executed (action : String) (target : String)
  | added (target : String)
  | reply
deriving DecidableEq

/-- Words stripped when extracting the acted-on entity from a cellar
message. -/
def stopwords : List String :=
  ["remove", "add", "save", "the", "a", "to", "from", "my", "cellar", "please"]

/-- Modelled from the spec: entity extraction for cellar actions — the
message words left after dropping the action and particle words. -/
def entityOf (msg : String) : String :=
  String.intercalate " "
    (((splitChars ' ' msg.toList).filter
        (fun w => w ≠ [] && !stopwords.contains (String.mk (lowerChars w)))).map
      String.mk)

/-- Modelled from the spec: whether a reply explicitly matches a pending
confirmation's affirmative action. -/
def isAffirmative (msg : String) : Bool :=
  substrB "yes" msg || substrB "confirm" msg

/-- Modelled from the spec: executing a confirmed destructive action
clears the pending ticket and applies the mutation it described. -/
def executeConfirmed (c : ConfirmationRequest) (st : OrchState) : OrchState :=
  if c.action = "cellar_remove" then
    { st with pending := none, cellar := st.cellar.erase c.target_id }
  else if c.action = "profile_reset" then
    { st with pending := none, profileSignals := [] }
  else { st with pending := none }

/-- Modelled from the spec: dispatch of a message with no pending
confirmation.  A destructive Cellar action (`cellar_remove`, profile
reset) only emits a `ConfirmationRequest`; a non-destructive add
executes immediately; everything else is a plain reply. -/
def processFresh (st : OrchState) (msg : String) : OrchState × OrchOutput :=
  if substrB "reset" msg then
    let c : ConfirmationRequest := ⟨"profile_reset", "", true⟩
    ({ st with pending := some c }, .confirmation c)
  else
    match intentTypeOf msg none with
    | .cellar_remove =>
      let c : ConfirmationRequest := ⟨"cellar_remove", entityOf msg, true⟩
      ({ st with pending := some c }, .confirmation c)
    | .cellar_add =>
      ({ st with cellar := st.cellar ++ [entityOf msg] }, .added (entityOf msg))
    | _ => (st, .reply)

/-- Modelled from the spec: the orchestrator step (the orchestrator
source is not in the repository, only its design contract).  With a
confirmation pending, an affirmative reply executes the pending
mutation; any other reply silently cancels the pending confirmation
and is handled as a fresh message. -/
def process (st : OrchState) (msg : String) : OrchState × OrchOutput :=
  match st.pending with
  | some c =>
    if isAffirmative msg then
      (executeConfirmed c st, .executed c.action c.target_id)
    else processFresh { st with pending := none } msg
  | none => processFresh st msg

/-! ## Concrete fixtures used by witnesses -/

/-- A catalog wine satisfying the Scenario A filters. -/
def wineNapaCab : Wine :=
  ⟨1, "Napa Cab", "ProdA", 2019, "red", "Cabernet Sauvignon", "USA", "Napa",
    35, 92, ["bold"], ["dark fruit"]⟩

/-- A catalog wine failing the Scenario A type filter. -/
def wineCrispWhite : Wine :=
  ⟨2, "Crisp White", "ProdB", 2021, "white", "Chardonnay", "USA", "Sonoma",
    15, 88, [], ["apple"]⟩

/-- A catalog wine failing the Scenario A price filter. -/
def wineReserveRed : Wine :=
  ⟨3, "Reserve Red", "ProdC", 2018, "red", "Malbec", "Argentina", "Mendoza",
    55, 95, [], ["plum"]⟩

/-- A small scored catalog index. -/
def demoIndex : String → List (Wine × Int) :=
  fun _ => [(wineCrispWhite, 90), (wineNapaCab, 80), (wineReserveRed, 70)]

/-- The Scenario A query of spec section 8: wine type red, price range
(null, 40), food pairing steak. -/
def scenarioAQuery : SearchQuery :=
  ⟨"red wine steak", "", "Red wine under 40 for steak", none, some 40,
    some "red", none, none, none, none, some "steak"⟩

/-- The single recommendation `search demoIndex scenarioAQuery 3`
produces. -/
def demoRec : WineRecommendation :=
  ⟨wineNapaCab,
    "You asked for: Red wine under 40 for steak. Napa Cab offers dark fruit.",
    80, .user_request⟩

/-- An orchestrator state with a destructive removal confirmation
pending. -/
def pendingRemovalState : OrchState :=
  ⟨some ⟨"cellar_remove", "2019 Malbec", true⟩, ["2019 Malbec"], []⟩

/-! ## Helper lemmas -/

theorem length_takeLast (n : Nat) (l : List α) :
    (takeLast n l).length = min n l.length := by
  simp only [takeLast, List.length_drop]
  omega

theorem takeLast_suffix (n : Nat) (l : List α) : (takeLast n l).IsSuffix l :=
  List.drop_suffix _ _

/-- Trimming to the last `n` elements before appending more does not change
the final last-`n` slice. -/
theorem takeLast_takeLast_append (n : Nat) (a b : List α) :
    takeLast n (takeLast n a ++ b) = takeLast n (a ++ b) := by
  rcases le_or_lt n a.length with h | h
  · simp only [takeLast, List.length_append, List.length_drop]
    rw [show a.length - (a.length - n) + b.length - n = b.length by omega]
    rw [show a.length + b.length - n = (a.length - n) + b.length by omega]
    rw [← List.drop_drop]
    rw [List.drop_append_of_le_length (Nat.sub_le _ _)]
  · have : a.length - n = 0 := by omega
    simp [takeLast, this]

theorem addMessage_eq (h : List ChatMessage) (m : ChatMessage) :
    addMessage h m = takeLast 20 (h ++ [m]) := by
  simp only [addMessage]
  rcases Nat.lt_or_ge (h ++ [m]).length 21 with hlen | hlen
  · have hgt : ¬ (h ++ [m]).length > 20 := by omega
    simp only [if_neg hgt, takeLast]
    rw [show (h ++ [m]).length - 20 = 0 by omega, List.drop_zero]
  · have hgt : (h ++ [m]).length > 20 := by omega
    rw [if_pos hgt]

theorem rollHistory_eq (h : List ChatMessage) (ms : List ChatMessage)
    (hh : h.length ≤ 20) : rollHistory h ms = takeLast 20 (h ++ ms) := by
  induction ms generalizing h with
  | nil =>
    simp only [rollHistory, List.foldl_nil, List.append_nil, takeLast]
    rw [show h.length - 20 = 0 by omega, List.drop_zero]
  | cons m ms ih =>
    simp only [rollHistory, List.foldl_cons] at *
    rw [addMessage_eq h m]
    have hlen : (takeLast 20 (h ++ [m])).length ≤ 20 := by
      rw [length_takeLast]; omega
    rw [ih _ hlen, takeLast_takeLast_append]
    simp

theorem applyClick_ge_one (q : Int) (c : QtyClick) (hq : 1 ≤ q) :
    1 ≤ applyClick q c := by
  cases c
  · simp only [applyClick, incQuantity]; omega
  · simp only [applyClick, decQuantity]; omega

theorem applyClicks_ge_one (q : Int) (cs : List QtyClick) (hq : 1 ≤ q) :
    1 ≤ applyClicks q cs := by
  induction cs generalizing q with
  | nil => exact hq
  | cons c cs ih =>
    simp only [applyClicks, List.foldl_cons]
    exact ih _ (applyClick_ge_one q c hq)

theorem refreshAccessToken_calls_le_one (rs : RefreshState) (tok : Tokens)
    (net : NetScript) : (refreshAccessToken rs tok net).2.2 ≤ 1 := by
  unfold refreshAccessToken
  split
  · exact Nat.zero_le _
  · split
    · exact Nat.zero_le _
    · split
      · exact Nat.le_refl _
      · exact Nat.le_refl _

theorem refreshCalls_le_one (requiresAuth : Bool) (tok : Tokens) (net : NetScript) :
    (request requiresAuth tok net).2.2.refreshCalls ≤ 1 ∧
    (request requiresAuth tok net).2.2.mainCalls ≤ 2 := by
  have hle := refreshAccessToken_calls_le_one ⟨false, none⟩ tok net
  simp only [request]
  rcases hc : (is401 net.first && requiresAuth) with _ | _
  · simp only [hc, Bool.false_eq_true, if_false]
    split
    · exact ⟨Nat.zero_le _, Nat.le_succ_of_le (Nat.le_refl 1)⟩
    · exact ⟨Nat.zero_le _, Nat.le_succ_of_le (Nat.le_refl 1)⟩
  · simp only [hc, if_true]
    split
    · split
      · exact ⟨hle, Nat.le_refl 2⟩
      · exact ⟨hle, Nat.le_refl 2⟩
    · exact ⟨hle, Nat.le_succ_of_le (Nat.le_refl 1)⟩


theorem search_length_le (index : String → List (Wine × Int))
    (q : SearchQuery) (n : Nat) : (search index q n).length ≤ n := by
  simp only [search, List.length_map]
  exact (List.length_take _ _).le.trans (Nat.min_le_left _ _)

theorem mem_search_passesFilters {index : String → List (Wine × Int)}
    {q : SearchQuery} {n : Nat} {r : WineRecommendation}
    (hr : r ∈ search index q n) : passesFilters q r.wine = true := by
  simp only [search, List.mem_map] at hr
  obtain ⟨c, hc, rfl⟩ := hr
  have hc2 := List.mem_of_mem_take hc
  rw [List.mem_insertionSort] at hc2
  exact (List.mem_filter.1 hc2).2

theorem passesFilters_spec {q : SearchQuery} {w : Wine}
    (h : passesFilters q w = true) :
    (∀ m, q.price_min = some m → m ≤ w.price) ∧
    (∀ m, q.price_max = some m → w.price ≤ m) ∧
    (∀ t, q.wine_type_filter = some t → w.wine_type = t) ∧
    (∀ t, q.region_filter = some t → w.region = t) ∧
    (∀ t, q.country_filter = some t → w.country = t) ∧
    (∀ t, q.varietal_filter = some t → w.varietal = t) := by
  simp only [passesFilters, Bool.and_eq_true] at h
  obtain ⟨⟨⟨⟨⟨h1, h2⟩, h3⟩, h4⟩, h5⟩, h6⟩ := h
  refine ⟨fun m hm => ?_, fun m hm => ?_, fun t ht => ?_, fun t ht => ?_,
    fun t ht => ?_, fun t ht => ?_⟩
  · rw [hm] at h1; simpa using h1
  · rw [hm] at h2; simpa using h2
  · rw [ht] at h3; simpa using h3
  · rw [ht] at h4; simpa using h4
  · rw [ht] at h5; simpa using h5
  · rw [ht] at h6; simpa using h6

/-! ## Claim theorems -/

/-- C1: for every `SearchQuery` built by the Preference Interpreter,
`user_request` is the verbatim user ask and `category_knowledge` is the
system-derived joined knowledge text; the two are equal exactly when
the literal ask matches the retrieved knowledge verbatim; explanations
never consume the fused `query_text`, which is used only to address the
embedding index. -/
theorem searchQuery_provenance_separation (d : String) (ks : List String)
    (prefs : UserPreferences) (ex : Extracted) :
    (interpret d ks prefs ex).user_request = d ∧
    (interpret d ks prefs ex).category_knowledge = joinChunks ks ∧
    ((interpret d ks prefs ex).user_request
        = (interpret d ks prefs ex).category_knowledge ↔ d = joinChunks ks) ∧
    (∀ (q : SearchQuery) (s : String) (w : Wine),
      explanationFor { q with query_text := s } w = explanationFor q w) ∧
    (∀ (index : String → List (Wine × Int)) (q : SearchQuery) (n : Nat),
      search index q n = search (fun _ => index q.query_text) q n) :=
  ⟨rfl, rfl, Iff.rfl, fun _ _ _ => rfl, fun _ _ _ => rfl⟩

/-- C2: `search` returns at most `top_n` recommendations (default 3) and
an empty, non-error list when no candidate survives the hard filters;
the form-submission caller then shows the honest no-match message. -/
theorem search_bounded_and_nonerror (index : String → List (Wine × Int))
    (q : SearchQuery) (n : Nat) (message err : Option String) :
    (search index q n).length ≤ n ∧
    ((index q.query_text).filter (fun c => passesFilters q c.1) = [] →
      search index q n = []) ∧
    (∀ q2 : SearchQuery, search index q2 = search index q2 3) ∧
    handleRecommendationResponse true [] message err =
      .showError (message.getD
        "No wines found matching your criteria. Try adjusting your budget or preferences.") := by
  refine ⟨search_length_le index q n, fun h => ?_, fun _ => rfl, rfl⟩
  simp [search, h]

/-- C3: every wine returned by `search` satisfies every hard filter
present in the query, whatever its similarity score; in particular for
the Scenario A query every returned wine is priced at most 40 and typed
red, and at most 3 are returned. -/
theorem hard_filters_exclude (index : String → List (Wine × Int))
    (q : SearchQuery) (n : Nat) :
    (∀ r ∈ search index q n,
      (∀ m, q.price_min = some m → m ≤ r.wine.price) ∧
      (∀ m, q.price_max = some m → r.wine.price ≤ m) ∧
      (∀ t, q.wine_type_filter = some t → r.wine.wine_type = t) ∧
      (∀ t, q.region_filter = some t → r.wine.region = t) ∧
      (∀ t, q.country_filter = some t → r.wine.country = t) ∧
      (∀ t, q.varietal_filter = some t → r.wine.varietal = t)) ∧
    (∀ r ∈ search index scenarioAQuery 3,
      r.wine.price ≤ 40 ∧ r.wine.wine_type = "red") ∧
    (search index scenarioAQuery 3).length ≤ 3 := by
  refine ⟨fun r hr => passesFilters_spec (mem_search_passesFilters hr),
    fun r hr => ?_, search_length_le index scenarioAQuery 3⟩
  have h := passesFilters_spec (mem_search_passesFilters hr)
  exact ⟨h.2.1 40 rfl, h.2.2.1 "red" rfl⟩

/-- C3 witness: with the demo catalog and the Scenario A query, the
returned recommendation is a red wine priced at most 40. -/
theorem hard_filters_exclude_witness :
    demoRec.wine.price ≤ 40 ∧ demoRec.wine.wine_type = "red" :=
  (hard_filters_exclude demoIndex scenarioAQuery 3).2.1 demoRec (by decide)

/-- C2 witness: with a catalog whose only candidate fails the Scenario A
filters, `search` returns the empty list. -/
theorem search_bounded_and_nonerror_witness :
    search (fun _ => [(wineCrispWhite, 90)]) scenarioAQuery 3 = [] :=
  (search_bounded_and_nonerror (fun _ => [(wineCrispWhite, 90)])
    scenarioAQuery 3 none none).2.1 (by decide)

/-- C6: the recommendation list is sorted by similarity descending,
with ties broken by rating and then by price proximity to the midpoint
of the requested range. -/
theorem search_results_sorted (index : String → List (Wine × Int))
    (q : SearchQuery) (n : Nat) :
    List.Sorted (recRankLE q) (search index q n) := by
  have hs : List.Sorted (rankLE q)
      (((index q.query_text).filter
        (fun c => passesFilters q c.1)).insertionSort (rankLE q)) :=
    List.sorted_insertionSort (rankLE q) _
  have ht : List.Sorted (rankLE q)
      ((((index q.query_text).filter
        (fun c => passesFilters q c.1)).insertionSort (rankLE q)).take n) :=
    List.Pairwise.sublist (List.take_sublist n _) hs
  exact List.pairwise_map.2 (ht.imp (fun h => h))

/-- C5: the classifier returns exactly one `Intent` for every input
(message, attachment, history), including unintelligible input, and
maps anything no recognition path fires on to the `unclear` type
rather than an error. -/
theorem classify_total_and_unclear (oracle : Nat → String) (msg : String)
    (att : Option String) (hist : List ChatMessage) :
    (∃! i : Intent, classify oracle msg att hist = i) ∧
    (recognizedB msg att = false →
      (classify oracle msg att hist).type = IntentType.unclear) := by
  refine ⟨⟨classify oracle msg att hist, rfl, fun y hy => hy.symm⟩, fun h => ?_⟩
  simp only [recognizedB, Bool.or_eq_false_iff] at h
  obtain ⟨⟨h1, h2⟩, h3⟩ := h
  have hf : recognizers.find? (fun p => substrB p.1 msg) = none := by
    rw [List.find?_eq_none]
    intro x hx
    rw [List.any_eq_false] at h3
    exact h3 x hx
  simp [classify, intentTypeOf, h1, h2, hf]

/-- C5 witness: a nonsense message with no attachment matches no
recognition path and classifies as `unclear`. -/
theorem classify_total_and_unclear_witness :
    recognizedB "qwzzkk blorp" none = false ∧
    (classify (fun _ => "") "qwzzkk blorp" none []).type = IntentType.unclear :=
  ⟨by decide,
    (classify_total_and_unclear (fun _ => "") "qwzzkk blorp" none []).2
      (by decide)⟩

/-- C8: the intent type assigned by the classifier is a deterministic
function of the message, attachment and history — it does not depend on
the free-text oracle of the language model. -/
theorem classify_type_deterministic (o1 o2 : Nat → String) (msg : String)
    (att : Option String) (hist : List ChatMessage) :
    (classify o1 msg att hist).type = (classify o2 msg att hist).type := rfl

/-- C4 counterexample: with a destructive removal confirmation pending,
the non-matching next message "Add Merlot to my cellar" cancels the
pending confirmation but does NOT leave the cellar unchanged — being
handled as a fresh message, it adds a bottle. -/
theorem confirmation_cancel_counterexample :
    isAffirmative "Add Merlot to my cellar" = false ∧
    pendingRemovalState.pending =
      some ⟨"cellar_remove", "2019 Malbec", true⟩ ∧
    (process pendingRemovalState "Add Merlot to my cellar").1.pending = none ∧
    (process pendingRemovalState "Add Merlot to my cellar").1.cellar ≠
      pendingRemovalState.cellar := by
  decide

/-- C4 (amended): either destructive action — a Cellar removal intent
or a profile reset trigger — only emits a destructive
`ConfirmationRequest`, mutating neither the cellar nor the profile
signals; the pending mutation (cellar erase, or profile wipe) executes
exactly when the next message matches the affirmative; any other next
message silently cancels the pending confirmation and is handled as a
fresh message — the pending destructive mutation never executes,
though the fresh message may perform its own action. -/
theorem confirmation_protocol (st : OrchState) (c : ConfirmationRequest)
    (msg : String) :
    (st.pending = none →
      intentTypeOf msg none = .cellar_remove ∨ substrB "reset" msg = true →
      (process st msg).1.cellar = st.cellar ∧
      (process st msg).1.profileSignals = st.profileSignals ∧
      (∃ c2 : ConfirmationRequest, (process st msg).1.pending = some c2 ∧
        c2.destructive = true ∧ (process st msg).2 = .confirmation c2)) ∧
    (st.pending = some c → isAffirmative msg = true →
      process st msg = (executeConfirmed c st, .executed c.action c.target_id) ∧
      (c.action = "cellar_remove" →
        (process st msg).1.cellar = st.cellar.erase c.target_id) ∧
      (c.action = "profile_reset" →
        (process st msg).1.profileSignals = [])) ∧
    (st.pending = some c → isAffirmative msg = false →
      process st msg = process { st with pending := none } msg) := by
  refine ⟨fun hp hi => ?_, fun hp ha => ?_, fun hp ha => ?_⟩
  · simp only [process, hp, processFresh]
    rcases hreset : substrB "reset" msg with _ | _
    · rcases hi with hi | hi
      · simp only [Bool.false_eq_true, if_false, hi]
        exact ⟨trivial, trivial,
          ⟨"cellar_remove", entityOf msg, true⟩, rfl, rfl, rfl⟩
      · rw [hreset] at hi
        exact absurd hi (by simp)
    · simp only [if_true]
      exact ⟨trivial, trivial, ⟨"profile_reset", "", true⟩, rfl, rfl, rfl⟩
  · simp only [process, hp, ha, if_true]
    refine ⟨trivial, fun hc => ?_, fun hc => ?_⟩
    · simp [executeConfirmed, hc]
    · have hne : ¬ c.action = "cellar_remove" := by rw [hc]; decide
      simp [executeConfirmed, hc, hne]
  · simp [process, hp, ha]

/-- C4 witness: with the removal confirmation pending, the reply
"never mind" is handled exactly as a fresh message with no pending
confirmation. -/
theorem confirmation_protocol_witness :
    process pendingRemovalState "never mind" =
      process ⟨none, ["2019 Malbec"], []⟩ "never mind" :=
  (confirmation_protocol pendingRemovalState
      ⟨"cellar_remove", "2019 Malbec", true⟩ "never mind").2.2
    rfl (by decide)

/-- C7: starting from the empty history, the rolling history kept by
the chat hook is exactly the last 20 entries of the message stream, in
order and unmodified (a suffix), and each chat request sends at most
the last 10 entries. -/
theorem history_rolling_bounded (ms : List ChatMessage) :
    rollHistory [] ms = takeLast 20 ms ∧
    (rollHistory [] ms).length ≤ 20 ∧
    (rollHistory [] ms).IsSuffix ms ∧
    (∀ h : List ChatMessage,
      (sendHistory h).length ≤ 10 ∧ (sendHistory h).IsSuffix h) := by
  have he : rollHistory [] ms = takeLast 20 ms := by
    have := rollHistory_eq [] ms (by simp)
    simpa using this
  refine ⟨he, ?_, ?_, fun h => ⟨?_, takeLast_suffix 10 h⟩⟩
  · rw [he, length_takeLast]; omega
  · rw [he]; exact takeLast_suffix 20 ms
  · rw [sendHistory, length_takeLast]; omega

/-- C9: a 401 on an authenticated request triggers at most one token
refresh and at most one retry; a failed refresh clears both stored
tokens and the call throws "Session expired. Please log in again.";
a refresh already in flight is shared — no second refresh call is
issued. -/
theorem token_refresh_single_retry (requiresAuth : Bool) (tok : Tokens)
    (net : NetScript) :
    (request requiresAuth tok net).2.2.refreshCalls ≤ 1 ∧
    (request requiresAuth tok net).2.2.mainCalls ≤ 2 ∧
    (requiresAuth = true → is401 net.first = true →
      (refreshAccessToken ⟨false, none⟩ tok net).1 = false →
      (request requiresAuth tok net).1 =
        .error "Session expired. Please log in again." ∧
      (request requiresAuth tok net).2.1 = clearTokens) ∧
    (∀ (rs : RefreshState) (tok2 : Tokens) (net2 : NetScript),
      rs.isRefreshing = true →
      refreshAccessToken rs tok2 net2 = (rs.refreshPromise.getD false, tok2, 0)) := by
  refine ⟨(refreshCalls_le_one requiresAuth tok net).1,
    (refreshCalls_le_one requiresAuth tok net).2, fun hA h4 hr => ?_,
    fun rs tok2 net2 hrs => ?_⟩
  · simp only [request, hA, h4, Bool.and_self, if_true, hr,
      Bool.false_eq_true, if_false]
    exact ⟨trivial, trivial⟩
  · simp [refreshAccessToken, hrs]

/-- C9 witness: an authenticated request hitting a 401 whose refresh
endpoint fails ends with the session-expired error and cleared
tokens. -/
theorem token_refresh_single_retry_witness :
    (request true ⟨some "a", some "r"⟩
        ⟨.failure 401 none, none, .success "ok"⟩).1 =
      .error "Session expired. Please log in again." ∧
    (request true ⟨some "a", some "r"⟩
        ⟨.failure 401 none, none, .success "ok"⟩).2.1 = clearTokens :=
  (token_refresh_single_retry true ⟨some "a", some "r"⟩
      ⟨.failure 401 none, none, .success "ok"⟩).2.2.1
    rfl (by decide) (by decide)

/-- C10: the quantity decrement control computes `max 1 (quantity - 1)`
and the increment adds 1, so from any valid quantity every sequence of
clicks keeps the edited quantity at least 1; the decrement alone can
never produce a value below 1, with or without the missing-value
coalescing of the card edit form. -/
theorem quantity_never_below_one (q : Int) (cs : List QtyClick) (v : Int) :
    (1 ≤ q → 1 ≤ applyClicks q cs) ∧
    1 ≤ decQuantity q ∧
    (∀ oq : Option Int, 1 ≤ decQuantityOpt oq) ∧
    (1 ≤ v → incQuantityOpt (some v) = v + 1 ∧
      decQuantityOpt (some v) = max 1 (v - 1)) := by
  refine ⟨applyClicks_ge_one q cs, le_max_left 1 _,
    fun oq => le_max_left 1 _, fun hv => ?_⟩
  have hv0 : ¬ v = 0 := by omega
  constructor
  · simp [incQuantityOpt, incQuantity, coalesceQty, hv0]
  · simp [decQuantityOpt, decQuantity, coalesceQty, hv0]

/-- C10 witness: three clicks starting from quantity 1 never drop the
quantity below 1. -/
theorem quantity_never_below_one_witness :
    1 ≤ applyClicks 1 [QtyClick.dec, QtyClick.dec, QtyClick.inc] :=
  (quantity_never_below_one 1 [QtyClick.dec, QtyClick.dec, QtyClick.inc] 1).1
    (by decide)

end WineBot
